import Mathlib

/-!
Verification of the insult/retort resolution engine (src/insults.rs).

The registry owns five faction dictionaries (hash maps from insult phrase
to retort phrase, modelled as association lists with BEq lookup) and a list
of fallback phrases. Resolution walks the factions in a fixed order with
override-aware lookups; sampling helpers pick random elements, panicking on
empty collections (panic is modelled as `none`).
-/

/-- The insult registry, mirroring `struct Insults` in src/insults.rs.
Each hash map is modelled as an association list; a key occurs at most once
in the data produced by deserialization, and `List.lookup` returns the
first binding, matching `HashMap::get`. -/
structure Insults where
  failed_retorts : List String
  monkey_island1 : List (String × String)
  sword_master : List (String × String)
  monkey_island3 : List (String × String)
  captain_rottingham : List (String × String)
  monkey_island4 : List (String × String)

namespace Insults

/-- Source function retort_from: exact lookup of an insult in one dictionary
(`map.get(insult)` wrapped back into an `Option`). -/
def retort_from (insult : String) (map : List (String × String)) : Option String :=
  match map.lookup insult with
  | some x => some x
  | none => none

/-- Source function sword_master_retort: plain lookup in the sword_master dictionary. -/
def sword_master_retort (m : Insults) (insult : String) : Option String :=
  retort_from insult m.sword_master

/-- Source function mi1_retort: override-aware Monkey Island 1 retort; a sword-master
insult yields the fixed admonishment string. -/
def mi1_retort (m : Insults) (insult : String) : Option String :=
  match m.sword_master_retort insult with
  | some _ => some "That\x27s not fair, you\x27re using the Sword Master\x27s insults!"
  | none => retort_from insult m.monkey_island1

/-- Source function captain_rottingham_retort: plain lookup in the captain_rottingham
dictionary. -/
def captain_rottingham_retort (m : Insults) (insult : String) : Option String :=
  retort_from insult m.captain_rottingham

/-- Source function mi3_retort: override-aware Monkey Island 3 retort; a Captain
Rottingham insult yields the fixed admonishment string. -/
def mi3_retort (m : Insults) (insult : String) : Option String :=
  match m.captain_rottingham_retort insult with
  | some _ => some "That\x27s not fair, you\x27re using Captain Rottingham\x27s insults!"
  | none => retort_from insult m.monkey_island3

/-- Source function mi4_retort: plain lookup in the monkey_island4 dictionary. -/
def mi4_retort (m : Insults) (insult : String) : Option String :=
  retort_from insult m.monkey_island4

/-- Source function retort: the global resolution chain of `or_else` calls. -/
def retort (m : Insults) (insult : String) : Option String :=
  (m.sword_master_retort insult).orElse fun _ =>
    (m.mi1_retort insult).orElse fun _ =>
      (m.mi3_retort insult).orElse fun _ =>
        (m.captain_rottingham_retort insult).orElse fun _ =>
          m.mi4_retort insult

/-- Model of rand::sample taking one element: one uniformly chosen element of
`xs`; indexing the sampled vector panics when `xs` is empty. The
randomness source is modelled as an arbitrary natural number reduced
modulo the length; panic is modelled as `none`. -/
def sample1 (rng : Nat) (xs : List String) : Option String :=
  xs.get? (rng % xs.length)

/-- Source function rand_failed_retort: a random element of `failed_retorts`. -/
def rand_failed_retort (m : Insults) (rng : Nat) : Option String :=
  sample1 rng m.failed_retorts

/-- Source function retort_or_rand_fail: the true retort when one exists, else a random
failed retort. -/
def retort_or_rand_fail (m : Insults) (insult : String) (rng : Nat) : Option String :=
  match m.retort insult with
  | some x => some x
  | none => m.rand_failed_retort rng

/-- Source function is_retort: whether `cand` is exactly the resolved retort for
`insult`. -/
def is_retort (m : Insults) (insult cand : String) : Bool :=
  match m.retort insult with
  | some x => x == cand
  | none => false

/-- Source function mi1_insults: the keys of the monkey_island1 dictionary. -/
def mi1_insults (m : Insults) : List String :=
  m.monkey_island1.map Prod.fst

/-- Source function sword_master_insults: the keys of the sword_master dictionary. -/
def sword_master_insults (m : Insults) : List String :=
  m.sword_master.map Prod.fst

/-- Source function monkey_island3_insults: the keys of the monkey_island3 dictionary. -/
def monkey_island3_insults (m : Insults) : List String :=
  m.monkey_island3.map Prod.fst

/-- Source function captain_rottingham_insults: the keys of the captain_rottingham
dictionary. -/
def captain_rottingham_insults (m : Insults) : List String :=
  m.captain_rottingham.map Prod.fst

/-- Source function monkey_island4_insults: the keys of the monkey_island4 dictionary. -/
def monkey_island4_insults (m : Insults) : List String :=
  m.monkey_island4.map Prod.fst

/-- Source function insults: all insults, pushed together in the fixed source order. -/
def insults (m : Insults) : List String :=
  m.mi1_insults ++ m.sword_master_insults ++ m.monkey_island3_insults ++
    m.captain_rottingham_insults ++ m.monkey_island4_insults

/-- Source function rand_insult: a random element of the combined insult list. -/
def rand_insult (m : Insults) (rng : Nat) : Option String :=
  sample1 rng m.insults

/-- Spec-side restatement of global resolution: the first non-absent
result among the factions tried in the order stated by the spec
(`List.findSome?` stops at the first hit). -/
def spec_retort (m : Insults) (insult : String) : Option String :=
  ([m.sword_master_retort insult, m.mi1_retort insult, m.mi3_retort insult,
    m.captain_rottingham_retort insult, m.mi4_retort insult]).findSome? id

end Insults

/-- A concrete registry with one entry per dictionary and one fallback
phrase, used to instantiate the general theorems. Fields in order:
failed_retorts, monkey_island1, sword_master, monkey_island3,
captain_rottingham, monkey_island4. -/
def sampleReg : Insults :=
  ⟨["Oh yeah?"],
   [("Have you stopped wearing diapers yet?", "Why, did you want to borrow one?")],
   [("sm insult", "sm retort")],
   [("mi3 insult", "mi3 retort")],
   [("cr insult", "cr retort")],
   [("mi4 insult", "mi4 retort")]⟩

/-- A concrete registry whose phrase "x" is a key of both monkey_island3
and monkey_island4 and of no other dictionary. -/
def overlapReg : Insults :=
  ⟨[], [], [], [("x", "from mi3")], [], [("x", "from mi4")]⟩

/-- The registry with every collection empty. -/
def emptyReg : Insults :=
  ⟨[], [], [], [], [], []⟩

section Helpers

open Insults

/-- The function retort_from is exactly `List.lookup`. -/
theorem retort_from_eq_lookup (insult : String) (l : List (String × String)) :
    retort_from insult l = l.lookup insult := by
  unfold retort_from
  cases l.lookup insult <;> rfl

/-- A `List.lookup` on a pair list succeeds exactly on the keys. -/
theorem lookup_isSome_iff_mem_keys (k : String) (l : List (String × String)) :
    (l.lookup k).isSome ↔ k ∈ l.map Prod.fst := by
  induction l with
  | nil => simp [List.lookup]
  | cons p t ih =>
      obtain ⟨a, b⟩ := p
      by_cases h : k = a
      · subst h
        simp [List.lookup]
      · have hb : (k == a) = false := beq_false_of_ne h
        simp [List.lookup, hb, ih, h]

/-- A successful `List.lookup` returns a value bound in the list. -/
theorem lookup_mem_of_eq_some {k v : String} {l : List (String × String)}
    (h : l.lookup k = some v) : (k, v) ∈ l := by
  induction l with
  | nil => simp [List.lookup] at h
  | cons p t ih =>
      obtain ⟨a, b⟩ := p
      by_cases hk : k = a
      · subst hk
        simp [List.lookup] at h
        simp [h]
      · have hb : (k == a) = false := beq_false_of_ne hk
        simp [List.lookup, hb] at h
        exact List.mem_cons_of_mem _ (ih h)

/-- An `orElse` chain is defined exactly when one of its sides is. -/
theorem orElse_isSome (o : Option String) (f : Unit → Option String) :
    (o.orElse f).isSome ↔ (o.isSome ∨ (f ()).isSome) := by
  cases o <;> simp [Option.orElse]

/-- The sword-master lookup succeeds exactly on the sword-master keys. -/
theorem sword_master_retort_isSome_iff (m : Insults) (k : String) :
    (m.sword_master_retort k).isSome ↔ k ∈ m.sword_master_insults := by
  unfold sword_master_retort sword_master_insults
  rw [retort_from_eq_lookup]
  exact lookup_isSome_iff_mem_keys k _

/-- The Captain Rottingham lookup succeeds exactly on its keys. -/
theorem captain_rottingham_retort_isSome_iff (m : Insults) (k : String) :
    (m.captain_rottingham_retort k).isSome ↔ k ∈ m.captain_rottingham_insults := by
  unfold captain_rottingham_retort captain_rottingham_insults
  rw [retort_from_eq_lookup]
  exact lookup_isSome_iff_mem_keys k _

/-- The Monkey Island 4 lookup succeeds exactly on its keys. -/
theorem mi4_retort_isSome_iff (m : Insults) (k : String) :
    (m.mi4_retort k).isSome ↔ k ∈ m.monkey_island4_insults := by
  unfold mi4_retort monkey_island4_insults
  rw [retort_from_eq_lookup]
  exact lookup_isSome_iff_mem_keys k _

/-- The override-aware Monkey Island 1 retort succeeds exactly on the
union of the sword-master keys and the monkey_island1 keys. -/
theorem mi1_retort_isSome_iff (m : Insults) (k : String) :
    (m.mi1_retort k).isSome ↔ (k ∈ m.sword_master_insults ∨ k ∈ m.mi1_insults) := by
  unfold mi1_retort
  cases h : m.sword_master_retort k with
  | some v =>
      have hs : k ∈ m.sword_master_insults :=
        (sword_master_retort_isSome_iff m k).1 (by rw [h]; rfl)
      simp [hs]
  | none =>
      have hs : ¬ k ∈ m.sword_master_insults := by
        rw [← sword_master_retort_isSome_iff m k, h]
        simp
      simp [hs, retort_from_eq_lookup, mi1_insults, lookup_isSome_iff_mem_keys]

/-- The override-aware Monkey Island 3 retort succeeds exactly on the
union of the Captain Rottingham keys and the monkey_island3 keys. -/
theorem mi3_retort_isSome_iff (m : Insults) (k : String) :
    (m.mi3_retort k).isSome ↔
      (k ∈ m.captain_rottingham_insults ∨ k ∈ m.monkey_island3_insults) := by
  unfold mi3_retort
  cases h : m.captain_rottingham_retort k with
  | some v =>
      have hs : k ∈ m.captain_rottingham_insults :=
        (captain_rottingham_retort_isSome_iff m k).1 (by rw [h]; rfl)
      simp [hs]
  | none =>
      have hs : ¬ k ∈ m.captain_rottingham_insults := by
        rw [← captain_rottingham_retort_isSome_iff m k, h]
        simp
      simp [hs, retort_from_eq_lookup, monkey_island3_insults, lookup_isSome_iff_mem_keys]

/-- Global resolution succeeds exactly on the combined insult list. -/
theorem retort_isSome_iff (m : Insults) (k : String) :
    (m.retort k).isSome ↔ k ∈ m.insults := by
  unfold retort
  simp only [orElse_isSome, sword_master_retort_isSome_iff, mi1_retort_isSome_iff,
    mi3_retort_isSome_iff, captain_rottingham_retort_isSome_iff, mi4_retort_isSome_iff,
    insults, List.mem_append]
  tauto

/-- Sampling from a non-empty list yields a member of the list. -/
theorem sample1_mem_of_ne_nil {xs : List String} (rng : Nat) (h : xs ≠ []) :
    ∃ x, sample1 rng xs = some x ∧ x ∈ xs := by
  have hl : 0 < xs.length := List.length_pos.2 h
  have hlt : rng % xs.length < xs.length := Nat.mod_lt _ hl
  refine ⟨xs.get ⟨rng % xs.length, hlt⟩, ?_, List.get_mem xs _ hlt⟩
  unfold sample1
  exact List.get?_eq_get hlt

/-- Sampling panics (returns `none`) exactly on the empty list. -/
theorem sample1_eq_none_iff (rng : Nat) (xs : List String) :
    sample1 rng xs = none ↔ xs = [] := by
  constructor
  · intro h
    by_contra hne
    obtain ⟨x, hx, _⟩ := sample1_mem_of_ne_nil rng hne
    rw [h] at hx
    cases hx
  · intro h
    subst h
    rfl

/-- A successful sample is a member of the sampled list. -/
theorem sample1_mem {rng : Nat} {xs : List String} {x : String}
    (h : sample1 rng xs = some x) : x ∈ xs := by
  unfold sample1 at h
  exact List.get?_mem h

/-- Membership in the combined insult list is membership in some
faction's key list. -/
theorem mem_insults_iff (m : Insults) (k : String) :
    k ∈ m.insults ↔
      (k ∈ m.mi1_insults ∨ k ∈ m.sword_master_insults ∨ k ∈ m.monkey_island3_insults ∨
       k ∈ m.captain_rottingham_insults ∨ k ∈ m.monkey_island4_insults) := by
  simp [insults, List.mem_append, or_assoc]

end Helpers

section Claims

open Insults

/-- C1: global resolution tries the factions in the strict order
sword_master_retort, mi1_retort, mi3_retort, captain_rottingham_retort,
mi4_retort, and returns the first non-absent result; `List.findSome?`
stops at the first hit, so no further faction is consulted after a
match. -/
theorem retort_is_first_hit_of_ordered_chain (m : Insults) (insult : String) :
    m.retort insult = m.spec_retort insult := by
  unfold retort spec_retort
  cases hs : m.sword_master_retort insult <;>
    cases h1 : m.mi1_retort insult <;>
      cases h3 : m.mi3_retort insult <;>
        cases hc : m.captain_rottingham_retort insult <;>
          cases h4 : m.mi4_retort insult <;>
            simp [List.findSome?, Option.orElse, id]

/-- C2: every key of any of the five faction dictionaries resolves to a
non-absent retort validated by is_retort, and every phrase outside all
five dictionaries resolves to `none` (absence, never an error). -/
theorem retort_hits_keys_and_misses_unknown (m : Insults) (k : String) :
    ((k ∈ m.mi1_insults ∨ k ∈ m.sword_master_insults ∨ k ∈ m.monkey_island3_insults ∨
      k ∈ m.captain_rottingham_insults ∨ k ∈ m.monkey_island4_insults) →
        ∃ r, m.retort k = some r ∧ m.is_retort k r = true) ∧
    (¬ (k ∈ m.mi1_insults ∨ k ∈ m.sword_master_insults ∨ k ∈ m.monkey_island3_insults ∨
      k ∈ m.captain_rottingham_insults ∨ k ∈ m.monkey_island4_insults) →
        m.retort k = none) := by
  constructor
  · intro hk
    obtain ⟨r, hr⟩ :=
      Option.isSome_iff_exists.1 ((retort_isSome_iff m k).2 ((mem_insults_iff m k).2 hk))
    refine ⟨r, hr, ?_⟩
    unfold is_retort
    simp [hr]
  · intro hk
    rw [← Option.not_isSome_iff_eq_none]
    intro hsome
    exact hk ((mem_insults_iff m k).1 ((retort_isSome_iff m k).1 hsome))

/-- Closed instance of C2 at a concrete registry and key. -/
theorem retort_hits_keys_and_misses_unknown_witness :
    ∃ r, sampleReg.retort "sm insult" = some r ∧ sampleReg.is_retort "sm insult" r = true :=
  (retort_hits_keys_and_misses_unknown sampleReg "sm insult").1 (by decide)

/-- C3: every sword-master key makes mi1_retort return the fixed
Sword Master admonishment, and every Captain Rottingham key makes
mi3_retort return the fixed Captain Rottingham admonishment, regardless
of the content of the parent faction dictionary. -/
theorem override_factions_return_admonishment (m : Insults) (k : String) :
    (k ∈ m.sword_master_insults →
      m.mi1_retort k =
        some "That\x27s not fair, you\x27re using the Sword Master\x27s insults!") ∧
    (k ∈ m.captain_rottingham_insults →
      m.mi3_retort k =
        some "That\x27s not fair, you\x27re using Captain Rottingham\x27s insults!") := by
  constructor
  · intro hk
    obtain ⟨v, hv⟩ :=
      Option.isSome_iff_exists.1 ((sword_master_retort_isSome_iff m k).2 hk)
    unfold mi1_retort
    rw [hv]
  · intro hk
    obtain ⟨v, hv⟩ :=
      Option.isSome_iff_exists.1 ((captain_rottingham_retort_isSome_iff m k).2 hk)
    unfold mi3_retort
    rw [hv]

/-- Closed instance of C3 at a concrete registry and key. -/
theorem override_factions_return_admonishment_witness :
    sampleReg.mi1_retort "sm insult" =
      some "That\x27s not fair, you\x27re using the Sword Master\x27s insults!" :=
  (override_factions_return_admonishment sampleReg "sm insult").1 (by decide)

/-- C9: the combined insult list is the ordered concatenation of the five
key lists, its length is the sum of the five dictionary sizes, and
occurrence counts add up across factions (no deduplication). -/
theorem insults_concat_length_count (m : Insults) :
    m.insults = m.mi1_insults ++ m.sword_master_insults ++ m.monkey_island3_insults ++
      m.captain_rottingham_insults ++ m.monkey_island4_insults ∧
    m.insults.length = m.monkey_island1.length + m.sword_master.length +
      m.monkey_island3.length + m.captain_rottingham.length + m.monkey_island4.length ∧
    ∀ p : String,
      m.insults.count p = m.mi1_insults.count p + m.sword_master_insults.count p +
        m.monkey_island3_insults.count p + m.captain_rottingham_insults.count p +
        m.monkey_island4_insults.count p := by
  refine ⟨rfl, ?_, ?_⟩
  · simp only [insults, mi1_insults, sword_master_insults, monkey_island3_insults,
      captain_rottingham_insults, monkey_island4_insults, List.length_append,
      List.length_map]
  · intro p
    simp only [insults, List.count_append]

/-- C10: is_retort is true exactly when global resolution is present and
string-equal to the candidate; in particular it is false whenever
resolution is absent. -/
theorem is_retort_true_iff (m : Insults) (insult cand : String) :
    m.is_retort insult cand = true ↔ m.retort insult = some cand := by
  unfold is_retort
  cases h : m.retort insult with
  | none => simp
  | some x => simp [beq_iff_eq]

/-- C4, counterexample: in the registry `overlapReg`, "x" is a key of
both monkey_island3 (FactionC) and monkey_island4 (FactionB) and of no
other dictionary, yet global resolution returns the monkey_island3 value,
not the monkey_island4 value claimed under the FactionB-first priority
order. -/
theorem mi4_priority_counterexample :
    "x" ∈ overlapReg.monkey_island3_insults ∧ "x" ∈ overlapReg.monkey_island4_insults ∧
    "x" ∉ overlapReg.sword_master_insults ∧ "x" ∉ overlapReg.mi1_insults ∧
    "x" ∉ overlapReg.captain_rottingham_insults ∧
    overlapReg.retort "x" = some "from mi3" ∧
    ¬ overlapReg.retort "x" = some "from mi4" := by
  decide

/-- C4, amended: for a phrase that is a key of both monkey_island3 and
monkey_island4 and of no higher-priority dictionary, global resolution
returns the monkey_island3 (FactionC) mapped retort, because mi3_retort
is consulted before mi4_retort in the resolution chain. -/
theorem mi3_wins_mi4_overlap (m : Insults) (k : String)
    (h3 : k ∈ m.monkey_island3_insults) (h4 : k ∈ m.monkey_island4_insults)
    (hs : k ∉ m.sword_master_insults) (h1 : k ∉ m.mi1_insults)
    (hc : k ∉ m.captain_rottingham_insults) :
    ∃ v, m.monkey_island3.lookup k = some v ∧ m.retort k = some v := by
  have hsw : m.sword_master_retort k = none := by
    rw [← Option.not_isSome_iff_eq_none, sword_master_retort_isSome_iff]
    exact hs
  have hm1 : m.mi1_retort k = none := by
    rw [← Option.not_isSome_iff_eq_none, mi1_retort_isSome_iff]
    simp [hs, h1]
  have hcr : m.captain_rottingham_retort k = none := by
    rw [← Option.not_isSome_iff_eq_none, captain_rottingham_retort_isSome_iff]
    exact hc
  have hl : (m.monkey_island3.lookup k).isSome := by
    rw [lookup_isSome_iff_mem_keys]
    exact h3
  obtain ⟨v, hv⟩ := Option.isSome_iff_exists.1 hl
  refine ⟨v, hv, ?_⟩
  have hm3 : m.mi3_retort k = some v := by
    unfold mi3_retort
    rw [hcr]
    simp [retort_from_eq_lookup, hv]
  unfold retort
  rw [hsw, hm1, hm3]
  rfl

/-- Closed instance of the amended C4 at the overlap registry. -/
theorem mi3_wins_mi4_overlap_witness :
    ∃ v, overlapReg.monkey_island3.lookup "x" = some v ∧
      overlapReg.retort "x" = some v :=
  mi3_wins_mi4_overlap overlapReg "x" (by decide) (by decide) (by decide)
    (by decide) (by decide)

/-- C5: a phrase that is a sword-master key but not a monkey_island1 key
resolves globally to the sword-master mapped value (not the
admonishment), while a direct mi1_retort call on it returns the
admonishment string. -/
theorem sword_master_key_direct_value (m : Insults) (k : String)
    (hs : k ∈ m.sword_master_insults) (h1 : k ∉ m.mi1_insults) :
    m.retort k = m.sword_master.lookup k ∧
    (∃ v, m.sword_master.lookup k = some v) ∧
    m.mi1_retort k =
      some "That\x27s not fair, you\x27re using the Sword Master\x27s insults!" := by
  have hlook : (m.sword_master.lookup k).isSome := by
    rw [lookup_isSome_iff_mem_keys]
    exact hs
  obtain ⟨v, hv⟩ := Option.isSome_iff_exists.1 hlook
  have hsw : m.sword_master_retort k = some v := by
    unfold sword_master_retort
    rw [retort_from_eq_lookup, hv]
  refine ⟨?_, ⟨v, hv⟩, ?_⟩
  · unfold retort
    rw [hsw, hv]
    rfl
  · unfold mi1_retort
    rw [hsw]

/-- Closed instance of C5 at a concrete registry and key. -/
theorem sword_master_key_direct_value_witness :
    sampleReg.retort "sm insult" = sampleReg.sword_master.lookup "sm insult" ∧
    (∃ v, sampleReg.sword_master.lookup "sm insult" = some v) ∧
    sampleReg.mi1_retort "sm insult" =
      some "That\x27s not fair, you\x27re using the Sword Master\x27s insults!" :=
  sword_master_key_direct_value sampleReg "sm insult" (by decide) (by decide)

/-- C6: a phrase that is a Captain Rottingham key and a key of no other
dictionary resolves globally to the fixed Captain Rottingham
admonishment, because mi3_retort is consulted before
captain_rottingham_retort in the resolution chain. -/
theorem rottingham_only_key_gets_admonishment (m : Insults) (k : String)
    (hc : k ∈ m.captain_rottingham_insults)
    (hs : k ∉ m.sword_master_insults) (h1 : k ∉ m.mi1_insults)
    (h3 : k ∉ m.monkey_island3_insults) (h4 : k ∉ m.monkey_island4_insults) :
    m.retort k =
      some "That\x27s not fair, you\x27re using Captain Rottingham\x27s insults!" := by
  have hsw : m.sword_master_retort k = none := by
    rw [← Option.not_isSome_iff_eq_none, sword_master_retort_isSome_iff]
    exact hs
  have hm1 : m.mi1_retort k = none := by
    rw [← Option.not_isSome_iff_eq_none, mi1_retort_isSome_iff]
    simp [hs, h1]
  obtain ⟨v, hv⟩ :=
    Option.isSome_iff_exists.1 ((captain_rottingham_retort_isSome_iff m k).2 hc)
  have hm3 : m.mi3_retort k =
      some "That\x27s not fair, you\x27re using Captain Rottingham\x27s insults!" := by
    unfold mi3_retort
    rw [hv]
  unfold retort
  rw [hsw, hm1, hm3]
  rfl

/-- Closed instance of C6 at a concrete registry and key. -/
theorem rottingham_only_key_gets_admonishment_witness :
    sampleReg.retort "cr insult" =
      some "That\x27s not fair, you\x27re using Captain Rottingham\x27s insults!" :=
  rottingham_only_key_gets_admonishment sampleReg "cr insult" (by decide) (by decide)
    (by decide) (by decide) (by decide)

/-- Helper used for the fallback claim: every value produced by global
resolution is either a value bound in one of the five dictionaries or
one of the two fixed admonishment strings. -/
theorem retort_value_provenance (m : Insults) (k r : String) (h : m.retort k = some r) :
    (∃ p, p ∈ m.monkey_island1 ++ m.sword_master ++ m.monkey_island3 ++
        m.captain_rottingham ++ m.monkey_island4 ∧ p.2 = r) ∨
    r = "That\x27s not fair, you\x27re using the Sword Master\x27s insults!" ∨
    r = "That\x27s not fair, you\x27re using Captain Rottingham\x27s insults!" := by
  unfold retort at h
  cases hsw : m.sword_master_retort k with
  | some v =>
      rw [hsw] at h
      simp [Option.orElse] at h
      subst h
      unfold sword_master_retort at hsw
      rw [retort_from_eq_lookup] at hsw
      refine Or.inl ⟨(k, v), ?_, rfl⟩
      have hm := lookup_mem_of_eq_some hsw
      simp only [List.mem_append]
      tauto
  | none =>
      rw [hsw] at h
      simp only [Option.orElse] at h
      cases hm1 : m.mi1_retort k with
      | some v =>
          rw [hm1] at h
          simp [Option.orElse] at h
          subst h
          unfold mi1_retort at hm1
          rw [hsw] at hm1
          simp only [retort_from_eq_lookup] at hm1
          refine Or.inl ⟨(k, v), ?_, rfl⟩
          have hm := lookup_mem_of_eq_some hm1
          simp only [List.mem_append]
          tauto
      | none =>
          rw [hm1] at h
          simp only [Option.orElse] at h
          cases hm3 : m.mi3_retort k with
          | some v =>
              rw [hm3] at h
              simp [Option.orElse] at h
              subst h
              unfold mi3_retort at hm3
              cases hcr : m.captain_rottingham_retort k with
              | some w =>
                  rw [hcr] at hm3
                  simp at hm3
                  exact Or.inr (Or.inr hm3.symm)
              | none =>
                  rw [hcr] at hm3
                  simp only [retort_from_eq_lookup] at hm3
                  refine Or.inl ⟨(k, v), ?_, rfl⟩
                  have hm := lookup_mem_of_eq_some hm3
                  simp only [List.mem_append]
                  tauto
          | none =>
              rw [hm3] at h
              simp only [Option.orElse] at h
              cases hcr : m.captain_rottingham_retort k with
              | some v =>
                  rw [hcr] at h
                  simp [Option.orElse] at h
                  subst h
                  unfold captain_rottingham_retort at hcr
                  rw [retort_from_eq_lookup] at hcr
                  refine Or.inl ⟨(k, v), ?_, rfl⟩
                  have hm := lookup_mem_of_eq_some hcr
                  simp only [List.mem_append]
                  tauto
              | none =>
                  rw [hcr] at h
                  simp only [Option.orElse] at h
                  unfold mi4_retort at h
                  rw [retort_from_eq_lookup] at h
                  refine Or.inl ⟨(k, r), ?_, rfl⟩
                  have hm := lookup_mem_of_eq_some h
                  simp only [List.mem_append]
                  tauto

/-- C7: with a non-empty fallback list whose phrases are non-empty and
dictionaries whose values are non-empty, retort_or_rand_fail always
succeeds, never yields the empty string, and yields either the resolved
retort or a member of failed_retorts. -/
theorem retort_or_rand_fail_nonempty_total (m : Insults) (insult : String) (rng : Nat)
    (hfr : m.failed_retorts ≠ [])
    (hfb : ∀ s ∈ m.failed_retorts, s ≠ "")
    (hval : ∀ p ∈ m.monkey_island1 ++ m.sword_master ++ m.monkey_island3 ++
        m.captain_rottingham ++ m.monkey_island4, p.2 ≠ "") :
    ∃ r, m.retort_or_rand_fail insult rng = some r ∧ r ≠ "" ∧
      (m.retort insult = some r ∨
        (m.retort insult = none ∧ r ∈ m.failed_retorts)) := by
  cases h : m.retort insult with
  | some x =>
      refine ⟨x, ?_, ?_, Or.inl rfl⟩
      · unfold retort_or_rand_fail
        rw [h]
      · rcases retort_value_provenance m insult x h with ⟨p, hp, hpv⟩ | hadm | hadm
        · rw [← hpv]
          exact hval p hp
        · rw [hadm]
          decide
        · rw [hadm]
          decide
  | none =>
      obtain ⟨x, hx, hmem⟩ := sample1_mem_of_ne_nil rng hfr
      refine ⟨x, ?_, hfb x hmem, Or.inr ⟨rfl, hmem⟩⟩
      unfold retort_or_rand_fail rand_failed_retort
      rw [h]
      exact hx

/-- Closed instance of C7 at a concrete registry, unmatched insult and
randomness value. -/
theorem retort_or_rand_fail_nonempty_total_witness :
    ∃ r, sampleReg.retort_or_rand_fail "unknown" 0 = some r ∧ r ≠ "" ∧
      (sampleReg.retort "unknown" = some r ∨
        (sampleReg.retort "unknown" = none ∧ r ∈ sampleReg.failed_retorts)) :=
  retort_or_rand_fail_nonempty_total sampleReg "unknown" 0 (by decide) (by decide)
    (by decide)

/-- C8: random sampling panics (modelled as `none`) exactly when the
sampled collection is empty — the fallback list for rand_failed_retort,
all five dictionaries for rand_insult — and on non-empty data every
successful sample is a member of the sampled collection. -/
theorem sampling_empty_is_panic (m : Insults) (rng : Nat) :
    (m.rand_failed_retort rng = none ↔ m.failed_retorts = []) ∧
    (m.rand_insult rng = none ↔
      (m.monkey_island1 = [] ∧ m.sword_master = [] ∧ m.monkey_island3 = [] ∧
       m.captain_rottingham = [] ∧ m.monkey_island4 = [])) ∧
    (∀ x, m.rand_failed_retort rng = some x → x ∈ m.failed_retorts) ∧
    (∀ x, m.rand_insult rng = some x → x ∈ m.insults) := by
  refine ⟨?_, ?_, ?_, ?_⟩
  · unfold rand_failed_retort
    exact sample1_eq_none_iff rng m.failed_retorts
  · unfold rand_insult
    rw [sample1_eq_none_iff]
    simp [insults, mi1_insults, sword_master_insults, monkey_island3_insults,
      captain_rottingham_insults, monkey_island4_insults, List.append_eq_nil,
      List.map_eq_nil_iff, and_assoc]
  · intro x hx
    unfold rand_failed_retort at hx
    exact sample1_mem hx
  · intro x hx
    unfold rand_insult at hx
    exact sample1_mem hx

/-- Closed instance of C8: sampling the empty fallback list panics. -/
theorem sampling_empty_is_panic_witness :
    emptyReg.rand_failed_retort 0 = none :=
  (sampling_empty_is_panic emptyReg 0).1.mpr rfl

end Claims
